import Mathlib

/-!
Verification of the uniOS kernel core against its specification.

Shallow embedding of the relevant C++ sources:
  * src/kernel/core/syscall.cpp   (user-pointer validation, read/write syscalls)
  * src/kernel/core/scheduler.cpp (process model, fork/exit/waitpid, schedule, sleep)
  * src/kernel/fs/unifs.cpp       (flat filesystem)
  * src/kernel/acpi.cpp           (S5 discovery and poweroff)
  * src/kernel/drivers/usb/usb_hid.cpp (keyboard report processing, key repeat)

Machine integers are modelled as Nat with explicit reduction mod 2^64 where
the C code can overflow.
-/

namespace UniOS

/-- 2^64, the modulus of the C `uint64_t` arithmetic. -/
def U64 : Nat := 2 ^ 64

/-- 2^16, the modulus of the C `uint16_t` arithmetic. -/
def U16 : Nat := 2 ^ 16

/-- `USER_SPACE_MAX` from src/kernel/core/syscall.cpp: 0x0000800000000000. -/
def USER_SPACE_MAX : Nat := 2 ^ 47

/-- `(uint64_t)-1`, the error sentinel returned by syscalls. -/
def U64_NEG1 : Nat := U64 - 1

/-- `validate_user_ptr` from src/kernel/core/syscall.cpp.
`addr` and `size` are the u64 arguments; the end-of-region computation
`addr + size - 1` is performed mod 2^64 exactly as in C. -/
def validate_user_ptr (addr size : Nat) : Bool :=
  if addr = 0 then false
  else if addr ≥ USER_SPACE_MAX then false
  else if 0 < size then
    if (addr + size - 1) % U64 < addr then false
    else if (addr + size - 1) % U64 ≥ USER_SPACE_MAX then false
    else true
  else true

/-- The acceptance set as the specification characterises it:
`{P : P ≠ 0 ∧ P + L ≤ 2^47 ∧ no wraparound}` (the sum is exact, so the
no-wraparound condition is implied by the bound). -/
def spec_accepts (P L : Nat) : Prop := P ≠ 0 ∧ P + L ≤ USER_SPACE_MAX

instance (P L : Nat) : Decidable (spec_accepts P L) := by
  unfold spec_accepts; infer_instance

end UniOS

namespace UniOS

/-- C1 counterexample: at P = 2^47 and L = 0 the characterisation
`P ≠ 0 ∧ P + L ≤ 2^47` holds, yet `validate_user_ptr` rejects (its check is
the strict `P < 2^47` for every L, including L = 0). -/
theorem C1_counterexample :
    spec_accepts USER_SPACE_MAX 0 ∧ validate_user_ptr USER_SPACE_MAX 0 = false := by
  constructor
  · exact ⟨by norm_num [USER_SPACE_MAX], by norm_num⟩
  · rfl

/-- C1 amended: for u64 arguments, validation accepts exactly
`P ≠ 0 ∧ P < 2^47` when L = 0, and exactly the specified set
`P ≠ 0 ∧ P + L ≤ 2^47` when L > 0. -/
theorem C1_validate_user_ptr_amended (P L : Nat) (hP : P < U64) (hL : L < U64) :
    validate_user_ptr P L = true ↔
      (P ≠ 0 ∧ ((L = 0 ∧ P < USER_SPACE_MAX) ∨ (0 < L ∧ P + L ≤ USER_SPACE_MAX))) := by
  unfold U64 at hP hL
  unfold validate_user_ptr USER_SPACE_MAX U64
  split_ifs with h1 h2 h3 h4 h5 <;> simp <;> omega

/-- Witness for C1 at the concrete accepted pointer of scenario S4:
P = 0x400000, L = 5. -/
theorem C1_witness :
    (0x400000 : Nat) < U64 ∧ (5 : Nat) < U64 ∧
      (validate_user_ptr 0x400000 5 = true ↔
        ((0x400000 : Nat) ≠ 0 ∧
          (((5 : Nat) = 0 ∧ (0x400000 : Nat) < USER_SPACE_MAX) ∨
            ((0 : Nat) < 5 ∧ 0x400000 + 5 ≤ USER_SPACE_MAX)))) := by
  refine ⟨by norm_num [U64], by norm_num [U64], ?_⟩
  exact C1_validate_user_ptr_amended 0x400000 5 (by norm_num [U64]) (by norm_num [U64])

end UniOS

/-! ## FD table and the read/write syscalls (src/kernel/core/syscall.cpp) -/

namespace UniOS

/-- `MAX_OPEN_FILES`: the header defining it is not among the sources; the
claims only touch the reserved slots 0..2, so the exact value is immaterial. -/
def MAX_OPEN_FILES : Nat := 16

/-- `FileDescriptor` record (in_use flag, cursor, size, borrowed data).
The borrowed data pointer is embedded as the file's byte list. -/
structure FileDescriptor where
  in_use : Bool
  position : Nat
  size : Nat
  data : List Nat
deriving DecidableEq, Inhabited

/-- `init_fd_table`: all slots cleared, then slots 0/1/2 reserved in-use. -/
def init_fd_table : List FileDescriptor :=
  (List.range MAX_OPEN_FILES).map
    (fun i => { in_use := decide (i < 3), position := 0, size := 0, data := [] })

/-- `sys_read` from src/kernel/core/syscall.cpp.  Arguments: fd (C int),
buffer address and count (u64); state: the fd table and the keyboard ring.
Result: (return value, bytes stored into the user buffer, fd table after,
keyboard ring after). -/
def sys_read (fd : Int) (bufAddr count : Nat) (tbl : List FileDescriptor)
    (ring : List Nat) : Nat × List Nat × List FileDescriptor × List Nat :=
  if 0 < count ∧ validate_user_ptr bufAddr count = false then
    (U64_NEG1, [], tbl, ring)
  else if fd < 0 ∨ (MAX_OPEN_FILES : Int) ≤ fd ∨
      (tbl.getD fd.toNat default).in_use = false then
    (U64_NEG1, [], tbl, ring)
  else if fd = 0 then
    -- the `fd == STDIN_FD` branch: the source returns 0 (`TODO` in the code),
    -- reading nothing from the keyboard ring
    (0, [], tbl, ring)
  else
    let f := tbl.getD fd.toNat default
    let to_read := min count (f.size - f.position)
    (to_read, (f.data.drop f.position).take to_read,
      tbl.set fd.toNat { f with position := f.position + to_read }, ring)

/-- `sys_write` from src/kernel/core/syscall.cpp.  `buf` is the user memory
at `bufAddr`.  Result: (return value, characters consumed by the render loop,
which stops at the first NUL byte or after `count` bytes). -/
def sys_write (fd : Int) (bufAddr count : Nat) (buf : List Nat) :
    Nat × List Nat :=
  if 0 < count ∧ validate_user_ptr bufAddr count = false then
    (U64_NEG1, [])
  else if fd = 1 ∨ fd = 2 then
    (count, (buf.take count).takeWhile (fun b => b != 0))
  else
    (U64_NEG1, [])

end UniOS

namespace UniOS

/-- C10: for fd 1 or 2 and a buffer passing validation, `sys_write` returns
`count` unconditionally — the render loop may stop early at a NUL byte, so at
most `count` characters are rendered, and the return value is `count` even
then. -/
theorem C10_sys_write_returns_count (fd : Int) (bufAddr count : Nat)
    (buf : List Nat) (hfd : fd = 1 ∨ fd = 2)
    (hv : count = 0 ∨ validate_user_ptr bufAddr count = true) :
    (sys_write fd bufAddr count buf).1 = count ∧
      (sys_write fd bufAddr count buf).2.length ≤ count := by
  unfold sys_write
  have hnv : ¬(0 < count ∧ validate_user_ptr bufAddr count = false) := by
    rcases hv with h | h
    · omega
    · simp [h]
  rw [if_neg hnv, if_pos hfd]
  refine ⟨rfl, ?_⟩
  calc ((buf.take count).takeWhile (fun b => b != 0)).length
      ≤ (buf.take count).length :=
        (List.takeWhile_prefix (fun b => b != 0)).length_le
    _ ≤ count := by simp

/-- Witness for C10: count 5, buffer "h\0llo" — returns 5 while only one
character is rendered. -/
theorem C10_witness :
    ((1 : Int) = 1 ∨ (1 : Int) = 2) ∧
      ((5 : Nat) = 0 ∨ validate_user_ptr 0x400000 5 = true) ∧
      ((sys_write 1 0x400000 5 [104, 0, 108, 108, 111]).1 = 5 ∧
        (sys_write 1 0x400000 5 [104, 0, 108, 108, 111]).2.length ≤ 5) ∧
      (sys_write 1 0x400000 5 [104, 0, 108, 108, 111]).2 = [104] := by
  refine ⟨Or.inl rfl, Or.inr (by decide), ?_, by decide⟩
  exact C10_sys_write_returns_count 1 0x400000 5 [104, 0, 108, 108, 111]
    (Or.inl rfl) (Or.inr (by decide))

/-- C9 counterexample: with the character 'x' (120) queued in the keyboard
ring, a read on fd 0 with a valid buffer and count 1 returns 0 and leaves ring
and table untouched — it does not return the queued character, contradicting
the claim that a non-empty ring yields queued characters. -/
theorem C9_counterexample :
    ([(120 : Nat)] ≠ []) ∧
      sys_read 0 0x400000 1 init_fd_table [120] =
        (0, [], init_fd_table, [120]) := by
  constructor
  · simp
  · decide

/-- C9 amended: a read syscall on fd 0 with a valid buffer and count > 0
returns 0 immediately and consumes nothing from the keyboard ring, whatever
the ring contains (the source's STDIN branch is an unimplemented TODO). -/
theorem C9_sys_read_stdin_amended (bufAddr count : Nat) (ring : List Nat)
    (_hc : 0 < count) (hv : validate_user_ptr bufAddr count = true) :
    sys_read 0 bufAddr count init_fd_table ring =
      (0, [], init_fd_table, ring) := by
  unfold sys_read
  rw [if_neg (by simp [hv])]
  rw [if_neg (by decide), if_pos rfl]

/-- Witness for C9 at buffer 0x400000, count 1, ring ['x']. -/
theorem C9_witness :
    (0 : Nat) < 1 ∧ validate_user_ptr 0x400000 1 = true ∧
      sys_read 0 0x400000 1 init_fd_table [120] =
        (0, [], init_fd_table, [120]) := by
  refine ⟨by decide, by decide, ?_⟩
  exact C9_sys_read_stdin_amended 0x400000 1 [120] (by decide) (by decide)

end UniOS

/-! ## Scheduler and process model (src/kernel/core/scheduler.cpp)

The circular linked list of Process records is embedded as an arena: a map
from index to record plus a count; list order from the `process_list` head is
index order, `next` of index i is `(i + 1) % n`, and `current_process` is an
index.  Heap allocation is assumed to succeed (the failure paths return a
sentinel without touching the state and are outside the claims). -/

namespace UniOS

/-- The `PROCESS_*` state constants. -/
inductive PState where
  | Ready | Running | Sleeping | Waiting | Zombie | Blocked
deriving DecidableEq, Inhabited

/-- The `Process` record fields the claims touch. -/
structure Process where
  pid : Nat
  parent_pid : Nat
  state : PState
  exit_status : Int
  wait_for_pid : Nat
  wake_time : Nat
deriving DecidableEq, Inhabited

/-- Scheduler state: process arena (indices 0..n-1 in list order from the
`process_list` head), current index, and the `next_pid` counter. -/
structure Sched where
  procs : Nat → Process
  n : Nat
  cur : Nat
  next_pid : Nat

/-- The state `scheduler_init` establishes: one record, PID 0, Running. -/
def scheduler_init : Sched where
  procs := fun _ =>
    { pid := 0, parent_pid := 0, state := .Running, exit_status := 0
      wait_for_pid := 0, wake_time := 0 }
  n := 1
  cur := 0
  next_pid := 1

/-- A process is runnable for the `schedule()` scan. -/
def runnable (p : Process) : Bool :=
  p.state = PState.Ready ∨ p.state = PState.Running

/-- `wake_sleeping_processes`: one walk over the list; Sleeping records whose
wake time has passed become Ready. -/
def wake_sleeping_processes (now : Nat) (procs : Nat → Process) :
    Nat → Process := fun i =>
  let p := procs i
  if p.state = PState.Sleeping ∧ now ≥ p.wake_time then
    { p with state := PState.Ready }
  else p

/-- The `schedule()` scan: starting from `current->next`, the first index in
the cyclic order `cur+1, cur+2, …, cur+n` whose record is Ready or Running. -/
def find_next (procs : Nat → Process) (n cur : Nat) : Option Nat :=
  ((List.range n).map (fun k => (cur + 1 + k) % n)).find?
    (fun i => runnable (procs i))

/-- Update one arena slot. -/
def setProc (procs : Nat → Process) (i : Nat) (p : Process) : Nat → Process :=
  fun j => if j = i then p else procs j

/-- `scheduler_schedule` at tick `now`: wake sleepers, find the next runnable
record; if none other than the current one exists, return with interrupts
restored; otherwise demote a Running current to Ready, promote the choice to
Running and switch to it. -/
def scheduler_schedule (now : Nat) (s : Sched) : Sched :=
  if s.n = 0 then s else
  let ps := wake_sleeping_processes now s.procs
  match find_next ps s.n s.cur with
  | none => { s with procs := ps }
  | some i =>
    if i = s.cur then { s with procs := ps }
    else
      let prev := ps s.cur
      let ps1 := if prev.state = PState.Running then
          setProc ps s.cur { prev with state := PState.Ready }
        else ps
      let ps2 := setProc ps1 i { ps1 i with state := PState.Running }
      { s with procs := ps2, cur := i }

/-- `process_fork`: new record with the next PID, parent = current PID, state
Ready, appended at the end of the list.  Returns (child pid, new state). -/
def process_fork (s : Sched) : Nat × Sched :=
  let parent := s.procs s.cur
  let child : Process :=
    { pid := s.next_pid, parent_pid := parent.pid, state := .Ready
      exit_status := 0, wait_for_pid := 0, wake_time := 0 }
  (child.pid,
    { s with procs := setProc s.procs s.n child, n := s.n + 1
             next_pid := s.next_pid + 1 })

/-- `process_find_by_pid`: first record in list order with the given pid. -/
def process_find_by_pid (s : Sched) (pid : Nat) : Option Nat :=
  (List.range s.n).find? (fun i => (s.procs i).pid = pid)

/-- `process_exit`: mark the current record Zombie with the exit status, wake
the parent when it is Waiting for this child (wait-for 0 means any), then
schedule. -/
def process_exit (now : Nat) (status : Int) (s : Sched) : Sched :=
  let cp := s.procs s.cur
  let ps := setProc s.procs s.cur
    { cp with state := .Zombie, exit_status := status }
  let s1 := { s with procs := ps }
  let s2 :=
    match process_find_by_pid s1 cp.parent_pid with
    | none => s1
    | some j =>
      let parent := s1.procs j
      if parent.state = PState.Waiting ∧
          (parent.wait_for_pid = 0 ∨ parent.wait_for_pid = cp.pid) then
        { s1 with procs := setProc s1.procs j { parent with state := .Ready } }
      else s1
  scheduler_schedule now s2

/-- One scan of the `process_waitpid` loop: the first record in list order
that is a Zombie child of the current process and matches the pid filter.
Returns (child pid, exit status, state with the child moved to Blocked), or
none when no matching zombie exists. -/
def waitpid_scan (pid : Int) (s : Sched) : Option (Nat × Int × Sched) :=
  let cp := s.procs s.cur
  match (List.range s.n).find? (fun i =>
      (s.procs i).parent_pid = cp.pid ∧ (s.procs i).state = PState.Zombie ∧
        (pid = -1 ∨ pid = ((s.procs i).pid : Int))) with
  | none => none
  | some i =>
    some ((s.procs i).pid, (s.procs i).exit_status,
      { s with
          procs := (setProc s.procs i { s.procs i with state := .Blocked }) })

/-- The blocking half of `process_waitpid` when no zombie matched: the caller
records its wait filter, becomes Waiting, and schedules. -/
def waitpid_block (now : Nat) (pid : Int) (s : Sched) : Sched :=
  let cp := s.procs s.cur
  let ps := setProc s.procs s.cur
    { cp with state := .Waiting
              wait_for_pid := if pid = -1 then 0 else pid.toNat }
  scheduler_schedule now { s with procs := ps }

/-- `scheduler_sleep`: set the wake tick to now + ticks (u64 addition), state
Sleeping, then schedule. -/
def scheduler_sleep (now ticks : Nat) (s : Sched) : Sched :=
  if s.n = 0 then s else
  let cp := s.procs s.cur
  let ps := setProc s.procs s.cur
    { cp with wake_time := (now + ticks) % U64, state := .Sleeping }
  scheduler_schedule now { s with procs := ps }

/-- The tick count `scheduler_sleep_ms` computes: `ms * freq / 1000` in u64
arithmetic, forced to at least 1 for nonzero ms. -/
def sleep_ms_ticks (ms freq : Nat) : Nat :=
  let ticks := (ms * freq) % U64 / 1000
  if ticks = 0 ∧ 0 < ms then 1 else ticks

/-- `scheduler_sleep_ms`. -/
def scheduler_sleep_ms (now freq ms : Nat) (s : Sched) : Sched :=
  scheduler_sleep now (sleep_ms_ticks ms freq) s

end UniOS

namespace UniOS

/-- Arena slot update at the modified index. -/
theorem setProc_self (procs : Nat → Process) (i : Nat) (p : Process) :
    setProc procs i p i = p := by
  simp [setProc]

/-- Arena slot update elsewhere. -/
theorem setProc_other (procs : Nat → Process) (i j : Nat) (p : Process)
    (h : j ≠ i) : setProc procs i p j = procs j := by
  simp [setProc, h]

/-- Waking sleepers never produces a Running record out of a non-Running
one. -/
theorem wake_not_running (now : Nat) (procs : Nat → Process) (i : Nat)
    (h : (procs i).state ≠ PState.Running) :
    ((wake_sleeping_processes now procs) i).state ≠ PState.Running := by
  unfold wake_sleeping_processes
  dsimp only
  split_ifs with hc
  · simp
  · exact h

/-- The fork / exit / waitpid scenario of claim C2, step by step. -/
def C2_s1 : Sched := (process_fork scheduler_init).2

/-- Parent calls waitpid(-1): no zombie yet, so it blocks and the child is
scheduled. -/
def C2_s2 : Sched := waitpid_block 0 (-1) C2_s1

/-- The child calls exit(42). -/
def C2_s3 : Sched := process_exit 0 42 C2_s2

/-- The rescan of the parent's waitpid loop after it is woken. -/
def C2_res : Option (Nat × Int × Sched) := waitpid_scan (-1) C2_s3

/-- The state after the zombie child is reaped. -/
def C2_s4 : Sched :=
  match C2_res with
  | some r => r.2.2
  | none => C2_s3

/-- C2: from the initial state (only PID 0, Running), fork returns 1 and
creates a Ready child with parent PID 0; the first waitpid scan finds no
zombie so the parent blocks (Waiting, wait-for 0) and the child runs; after
exit(42) the child is a Zombie with status 42 and the woken parent is
scheduled back in; the rescan returns child PID 1 with status 42 and moves
the child from Zombie to Blocked. -/
theorem C2_fork_wait :
    (process_fork scheduler_init).1 = 1 ∧
      (C2_s1.procs 1).pid = 1 ∧
      (C2_s1.procs 1).state = PState.Ready ∧
      (C2_s1.procs 1).parent_pid = 0 ∧
      waitpid_scan (-1) C2_s1 = none ∧
      (C2_s2.procs 0).state = PState.Waiting ∧
      (C2_s2.procs 0).wait_for_pid = 0 ∧
      C2_s2.cur = 1 ∧
      (C2_s3.procs 1).state = PState.Zombie ∧
      (C2_s3.procs 1).exit_status = 42 ∧
      (C2_s3.procs 0).state = PState.Running ∧
      C2_s3.cur = 0 ∧
      C2_res.map (fun r => (r.1, r.2.1)) = some (1, 42) ∧
      (C2_s4.procs 1).state = PState.Blocked :=
  ⟨rfl, rfl, rfl, rfl, rfl, rfl, rfl, rfl, rfl, rfl, rfl, rfl, rfl, rfl⟩

/-- A one-record list whose only process is Sleeping with a wake tick still
in the future. -/
def C3_cex_state : Sched where
  procs := fun _ =>
    { pid := 0, parent_pid := 0, state := .Sleeping, exit_status := 0
      wait_for_pid := 0, wake_time := 10 }
  n := 1
  cur := 0
  next_pid := 1

/-- C3 counterexample: `schedule()` entered at tick 5 with the only process
Sleeping until tick 10 returns without any switch, and the current process is
still Sleeping — not Running as the claim demands. -/
theorem C3_counterexample :
    ((scheduler_schedule 5 C3_cex_state).procs
        (scheduler_schedule 5 C3_cex_state).cur).state = PState.Sleeping ∧
      PState.Sleeping ≠ PState.Running :=
  ⟨rfl, by decide⟩

/-- C3 amended: assuming no process other than the current one is Running
(true in every reachable state), after `schedule()` returns no process other
than the new current one is Running; moreover whenever `schedule()` actually
switched, the new current process is Running.  When no other process is
runnable the call returns without a switch and the current process keeps its
state (which is how a Sleeping or Waiting current survives the call). -/
theorem C3_schedule_amended (now : Nat) (s : Sched)
    (hinv : ∀ i, i < s.n → i ≠ s.cur →
      (s.procs i).state ≠ PState.Running) :
    (∀ i, i < (scheduler_schedule now s).n → i ≠ (scheduler_schedule now s).cur →
        ((scheduler_schedule now s).procs i).state ≠ PState.Running) ∧
      ((scheduler_schedule now s).cur ≠ s.cur →
        ((scheduler_schedule now s).procs
            (scheduler_schedule now s).cur).state = PState.Running) := by
  unfold scheduler_schedule
  by_cases hn : s.n = 0
  · simp only [hn, if_pos rfl]
    exact ⟨hinv, fun h => absurd rfl h⟩
  · simp only [if_neg hn]
    rcases hfind : find_next (wake_sleeping_processes now s.procs) s.n s.cur
      with - | i
    · simp only
      exact ⟨fun i hi hne => wake_not_running now s.procs i (hinv i hi hne),
        fun h => absurd rfl h⟩
    · simp only
      by_cases hcur : i = s.cur
      · simp only [hcur, if_pos rfl]
        exact ⟨fun i hi hne => wake_not_running now s.procs i (hinv i hi hne),
          fun h => absurd rfl h⟩
      · simp only [if_neg hcur]
        constructor
        · intro j hj hne
          rw [setProc_other _ _ _ _ hne]
          by_cases hjc : j = s.cur
          · subst hjc
            split_ifs with hrun
            · rw [setProc_self]
              simp
            · exact fun hr => hrun hr
          · have hwake : ((wake_sleeping_processes now s.procs) j).state ≠
                PState.Running :=
              wake_not_running now s.procs j (hinv j hj hjc)
            split_ifs with hrun
            · rw [setProc_other _ _ _ _ hjc]
              exact hwake
            · exact hwake
        · intro hx
          rw [setProc_self]

/-- A two-record list: PID 0 Running (current), PID 1 Ready. -/
def C3_w : Sched where
  procs := fun i =>
    if i = 0 then
      { pid := 0, parent_pid := 0, state := .Running, exit_status := 0
        wait_for_pid := 0, wake_time := 0 }
    else
      { pid := 1, parent_pid := 0, state := .Ready, exit_status := 0
        wait_for_pid := 0, wake_time := 0 }
  n := 2
  cur := 0
  next_pid := 2

/-- Witness for C3 on the two-record state: the invariant holds, and the
conclusion follows from the amended theorem. -/
theorem C3_witness :
    (∀ i, i < C3_w.n → i ≠ C3_w.cur →
        (C3_w.procs i).state ≠ PState.Running) ∧
      ((∀ i, i < (scheduler_schedule 0 C3_w).n →
          i ≠ (scheduler_schedule 0 C3_w).cur →
          ((scheduler_schedule 0 C3_w).procs i).state ≠ PState.Running) ∧
        ((scheduler_schedule 0 C3_w).cur ≠ C3_w.cur →
          ((scheduler_schedule 0 C3_w).procs
              (scheduler_schedule 0 C3_w).cur).state = PState.Running)) := by
  have hinv : ∀ i, i < C3_w.n → i ≠ C3_w.cur →
      (C3_w.procs i).state ≠ PState.Running := by
    intro i hi hne
    have h2 : i < 2 := hi
    interval_cases i
    · exact absurd rfl hne
    · decide
  exact ⟨hinv, C3_schedule_amended 0 C3_w hinv⟩

/-- C4 counterexample: at ms = 3 and a 500 Hz timer the code computes
`(3 * 500) / 1000 = 1` tick, while the claimed round-up conversion
`ceil(3 * 500 / 1000)` is 2. -/
theorem C4_counterexample :
    sleep_ms_ticks 3 500 = 1 ∧ (3 * 500 + 999) / 1000 = 2 ∧ (1 : Nat) ≠ 2 :=
  ⟨by decide, by norm_num, by decide⟩

/-- Two-task state for scenario S2: task A is PID 0 (current, Running),
task B is PID 1 (Ready). -/
def C4_state : Sched where
  procs := fun i =>
    if i = 0 then
      { pid := 0, parent_pid := 0, state := .Running, exit_status := 0
        wait_for_pid := 0, wake_time := 0 }
    else
      { pid := 1, parent_pid := 0, state := .Ready, exit_status := 0
        wait_for_pid := 0, wake_time := 0 }
  n := 2
  cur := 0
  next_pid := 2

/-- Task A calls `sleep_ms(5)` at tick 1000 with a 1000 Hz timer. -/
def C4_s1 : Sched := scheduler_sleep_ms 1000 1000 5 C4_state

/-- The first `schedule()` at tick 1005. -/
def C4_s2 : Sched := scheduler_schedule 1005 C4_s1

/-- C4 amended: `sleep_ms(ms)` for ms > 0 converts to
`max 1 (ms * freq / 1000)` ticks — the floor of the conversion, forced to at
least one tick — not the ceiling.  At 1000 Hz the scenario S2 behaviour
holds: `sleep_ms(5)` at tick 1000 sets wake-tick 1005 and state Sleeping,
and `schedule()` at tick 1005 wakes the task to Ready and runs it. -/
theorem C4_sleep_ms_amended (ms freq : Nat) (hmul : ms * freq < U64)
    (hms : 0 < ms) :
    sleep_ms_ticks ms freq = max 1 (ms * freq / 1000) ∧
      (C4_s1.procs 0).wake_time = 1005 ∧
      (C4_s1.procs 0).state = PState.Sleeping ∧
      ((wake_sleeping_processes 1005 C4_s1.procs) 0).state = PState.Ready ∧
      (C4_s2.procs 0).state = PState.Running ∧
      C4_s2.cur = 0 := by
  refine ⟨?_, rfl, rfl, rfl, rfl, rfl⟩
  unfold sleep_ms_ticks
  rw [Nat.mod_eq_of_lt hmul]
  show (if ms * freq / 1000 = 0 ∧ 0 < ms then 1 else ms * freq / 1000) =
    max 1 (ms * freq / 1000)
  split_ifs with h
  · simp [h.1]
  · rw [Nat.max_eq_right]
    omega

/-- Witness for C4 at ms = 5, freq = 1000 Hz. -/
theorem C4_witness :
    5 * 1000 < U64 ∧ (0 : Nat) < 5 ∧
      (sleep_ms_ticks 5 1000 = max 1 (5 * 1000 / 1000) ∧
        (C4_s1.procs 0).wake_time = 1005 ∧
        (C4_s1.procs 0).state = PState.Sleeping ∧
        ((wake_sleeping_processes 1005 C4_s1.procs) 0).state = PState.Ready ∧
        (C4_s2.procs 0).state = PState.Running ∧
        C4_s2.cur = 0) :=
  ⟨by norm_num [U64], by norm_num,
    C4_sleep_ms_amended 5 1000 (by norm_num [U64]) (by norm_num)⟩

end UniOS

/-! ## Flat filesystem (src/kernel/fs/unifs.cpp)

The image is a byte list.  Pointers into it are byte offsets; a borrowed
`char*` C string is the byte list up to the first NUL. -/

namespace UniOS

/-- The magic bytes "UNIFS v1". -/
def UNIFS_MAGIC : List Nat := [85, 78, 73, 70, 83, 32, 118, 49]

/-- The ELF magic bytes 7F 'E' 'L' 'F'. -/
def ELF_MAGIC : List Nat := [127, 69, 76, 70]

/-- `UNIFS_TYPE_*` constants from unifs.h. -/
def UNIFS_TYPE_UNKNOWN : Nat := 0
def UNIFS_TYPE_TEXT : Nat := 1
def UNIFS_TYPE_BINARY : Nat := 2
def UNIFS_TYPE_ELF : Nat := 3

/-- Little-endian 8-byte encoding of a u64 value. -/
def le64 (v : Nat) : List Nat :=
  [v % 256, v / 2 ^ 8 % 256, v / 2 ^ 16 % 256, v / 2 ^ 24 % 256,
    v / 2 ^ 32 % 256, v / 2 ^ 40 % 256, v / 2 ^ 48 % 256, v / 2 ^ 56 % 256]

/-- Little-endian decoding of a byte list. -/
def decode_le (bs : List Nat) : Nat :=
  bs.foldr (fun b acc => b + 256 * acc) 0

/-- Read `len` bytes of the image at `off`. -/
def readBytes (img : List Nat) (off len : Nat) : List Nat :=
  (img.drop off).take len

/-- Read a u64 field of the image at `off`. -/
def readU64 (img : List Nat) (off : Nat) : Nat :=
  decode_le (readBytes img off 8)

/-- A NUL-terminated C string viewed from a byte list. -/
def cstr : List Nat → List Nat
  | [] => []
  | b :: bs => if b = 0 then [] else b :: cstr bs

/-- `unifs_init` outcome: mounted iff the first 8 bytes match the magic. -/
def unifs_mounted (img : List Nat) : Bool :=
  readBytes img 0 8 = UNIFS_MAGIC

/-- `header->file_count`. -/
def file_count (img : List Nat) : Nat := readU64 img 8

/-- `entries[i].name` as a C string (64-byte field at `16 + 80 i`). -/
def entry_name (img : List Nat) (i : Nat) : List Nat :=
  cstr (readBytes img (16 + 80 * i) 64)

/-- `entries[i].offset`. -/
def entry_offset (img : List Nat) (i : Nat) : Nat :=
  readU64 img (16 + 80 * i + 64)

/-- `entries[i].size`. -/
def entry_size (img : List Nat) (i : Nat) : Nat :=
  readU64 img (16 + 80 * i + 72)

/-- `find_entry`: linear scan of the entry table by name. -/
def find_entry (img name : List Nat) : Option Nat :=
  if unifs_mounted img then
    (List.range (file_count img)).find? (fun i => entry_name img i = name)
  else none

/-- `unifs_open`: the returned handle as (size, the size data bytes at the
entry's offset). -/
def unifs_open (img name : List Nat) : Option (Nat × List Nat) :=
  match find_entry img name with
  | none => none
  | some i => some (entry_size img i, readBytes img (entry_offset img i) (entry_size img i))

/-- One byte passing the `is_text_content` loop: not a non-text control
byte, and not in the excluded band 127..159. -/
def text_byte (c : Nat) : Bool :=
  ¬(c < 32 ∧ c ≠ 10 ∧ c ≠ 13 ∧ c ≠ 9) ∧ ¬(126 < c ∧ c < 160)

/-- `is_text_content`: every byte among the first min(size, 256) passes. -/
def is_text_content (data : List Nat) (size : Nat) : Bool :=
  (data.take (min size 256)).all text_byte

/-- `unifs_get_file_type`. -/
def unifs_get_file_type (img name : List Nat) : Nat :=
  match find_entry img name with
  | none => UNIFS_TYPE_UNKNOWN
  | some i =>
    let data := img.drop (entry_offset img i)
    let size := entry_size img i
    if 4 ≤ size ∧ data.take 4 = ELF_MAGIC then UNIFS_TYPE_ELF
    else if is_text_content data size then UNIFS_TYPE_TEXT
    else UNIFS_TYPE_BINARY

/-- A text byte as claim C5 words it: in {9, 10, 13} or in [32, 126]. -/
def spec_text_byte (c : Nat) : Bool :=
  c = 9 ∨ c = 10 ∨ c = 13 ∨ (32 ≤ c ∧ c ≤ 126)

/-- The file-type classification exactly as claim C5 states it. -/
def spec_file_type (data : List Nat) (size : Nat) : Nat :=
  if 4 ≤ size ∧ data.take 4 = ELF_MAGIC then UNIFS_TYPE_ELF
  else if (data.take (min size 256)).all spec_text_byte then UNIFS_TYPE_TEXT
  else UNIFS_TYPE_BINARY

/-- A text byte as the code accepts it, for byte values: in {9, 10, 13},
in [32, 126], or in [160, 255] — the last band is what the claim misses. -/
def spec_text_byte_amended (c : Nat) : Bool :=
  c = 9 ∨ c = 10 ∨ c = 13 ∨ (32 ≤ c ∧ c ≤ 126) ∨ (160 ≤ c ∧ c ≤ 255)

/-- The classification with the amended text on byte values. -/
def spec_file_type_amended (data : List Nat) (size : Nat) : Nat :=
  if 4 ≤ size ∧ data.take 4 = ELF_MAGIC then UNIFS_TYPE_ELF
  else if (data.take (min size 256)).all spec_text_byte_amended then
    UNIFS_TYPE_TEXT
  else UNIFS_TYPE_BINARY

end UniOS

namespace UniOS

/-- A one-file image whose file "f" has the single content byte 160. -/
def C5_img : List Nat :=
  UNIFS_MAGIC ++ le64 1 ++ ([102] ++ List.replicate 63 0) ++ le64 96 ++
    le64 1 ++ [160]

/-- C5 counterexample: the code classifies the one-byte file 0xA0 as Text
(bytes 160..255 pass `is_text_content`), while the claim's set
{9, 10, 13} ∪ [32, 126] makes it Binary. -/
theorem C5_counterexample :
    unifs_get_file_type C5_img [102] = UNIFS_TYPE_TEXT ∧
      spec_file_type (C5_img.drop (entry_offset C5_img 0))
          (entry_size C5_img 0) = UNIFS_TYPE_BINARY ∧
      UNIFS_TYPE_TEXT ≠ UNIFS_TYPE_BINARY := by
  decide

/-- On byte values the code's text test equals the claim's set extended by
the band [160, 255]. -/
theorem text_byte_eq_amended (c : Nat) (hc : c < 256) :
    text_byte c = spec_text_byte_amended c := by
  rw [Bool.eq_iff_iff]
  simp only [text_byte, spec_text_byte_amended, decide_eq_true_eq]
  omega

/-- The `all` fold of the two byte tests agrees on byte lists. -/
theorem all_text_eq (l : List Nat) (h : ∀ b ∈ l, b < 256) :
    l.all text_byte = l.all spec_text_byte_amended := by
  induction l with
  | nil => rfl
  | cons b bs ih =>
    simp only [List.all_cons, text_byte_eq_amended b (h b (by simp)),
      ih (fun x hx => h x (by simp [hx]))]

/-- C5 amended: for an existing file whose inspected bytes are byte values,
`get_file_type` is ELF iff the file has at least 4 bytes matching
7F 'E' 'L' 'F'; otherwise Text iff every byte among the first
min(size, 256) lies in {9, 10, 13} ∪ [32, 126] ∪ [160, 255]; else Binary.
The band [160, 255] is the correction to the claim. -/
theorem C5_get_file_type_amended (img name : List Nat) (i : Nat)
    (hfind : find_entry img name = some i)
    (hbytes : ∀ b ∈ (img.drop (entry_offset img i)).take
        (min (entry_size img i) 256), b < 256) :
    unifs_get_file_type img name =
      spec_file_type_amended (img.drop (entry_offset img i))
        (entry_size img i) := by
  unfold unifs_get_file_type spec_file_type_amended
  rw [hfind]
  dsimp only
  rw [is_text_content, all_text_eq _ hbytes]

/-- The scenario S3 image: one file "README" with contents "hello\n". -/
def C5_w_img : List Nat :=
  UNIFS_MAGIC ++ le64 1 ++ ([82, 69, 65, 68, 77, 69] ++ List.replicate 58 0) ++
    le64 96 ++ le64 6 ++ [104, 101, 108, 108, 111, 10]

/-- Witness for C5 on the S3 image: README is classified Text. -/
theorem C5_witness :
    find_entry C5_w_img [82, 69, 65, 68, 77, 69] = some 0 ∧
      (∀ b ∈ (C5_w_img.drop (entry_offset C5_w_img 0)).take
          (min (entry_size C5_w_img 0) 256), b < 256) ∧
      unifs_get_file_type C5_w_img [82, 69, 65, 68, 77, 69] =
        spec_file_type_amended (C5_w_img.drop (entry_offset C5_w_img 0))
          (entry_size C5_w_img 0) ∧
      unifs_get_file_type C5_w_img [82, 69, 65, 68, 77, 69] =
        UNIFS_TYPE_TEXT := by
  refine ⟨by decide, by decide, ?_, by decide⟩
  exact C5_get_file_type_amended C5_w_img [82, 69, 65, 68, 77, 69] 0
    (by decide) (by decide)

end UniOS

/-! ## Round-trip: building a UNIFS v1 image and mounting it (claim C6) -/

namespace UniOS

/-- An input file for the image builder. -/
structure UFile where
  name : List Nat
  contents : List Nat

/-- Well-formed input file: the name fits the 64-byte NUL-terminated field
and holds no NUL byte. -/
def wfFile (f : UFile) : Prop :=
  f.name.length ≤ 63 ∧ ∀ b ∈ f.name, b ≠ 0

instance (f : UFile) : Decidable (wfFile f) := by
  unfold wfFile; infer_instance

/-- The 80-byte table entry for `f` whose contents sit at offset `off`. -/
def entryBytes (f : UFile) (off : Nat) : List Nat :=
  (f.name ++ List.replicate (64 - f.name.length) 0) ++ le64 off ++
    le64 f.contents.length

/-- The entry table with data offsets assigned sequentially from `off`. -/
def entriesBytes : List UFile → Nat → List Nat
  | [], _ => []
  | f :: fs, off =>
    entryBytes f off ++ entriesBytes fs (off + f.contents.length)

/-- The concatenated file contents. -/
def dataBytes : List UFile → List Nat
  | [] => []
  | f :: fs => f.contents ++ dataBytes fs

/-- Total content size. -/
def sizesSum (files : List UFile) : Nat :=
  (files.map (fun f => f.contents.length)).sum

/-- A well-formed UNIFS v1 image for the given files: header, 80-byte
entries, contents packed directly after the table. -/
def build (files : List UFile) : List Nat :=
  UNIFS_MAGIC ++ (le64 files.length ++
    (entriesBytes files (16 + 80 * files.length) ++ dataBytes files))

/-- The data offset the builder assigns to file j. -/
def data_off (files : List UFile) (j : Nat) : Nat :=
  16 + 80 * files.length + sizesSum (files.take j)

theorem le64_length (v : Nat) : (le64 v).length = 8 := rfl

theorem decode_le64 (v : Nat) (h : v < U64) : decode_le (le64 v) = v := by
  unfold U64 at h
  unfold decode_le le64
  simp only [List.foldr]
  omega

theorem entryBytes_length (f : UFile) (off : Nat) (h : f.name.length ≤ 63) :
    (entryBytes f off).length = 80 := by
  simp [entryBytes, le64_length]
  omega

theorem entriesBytes_length (files : List UFile) (off : Nat)
    (hw : ∀ f ∈ files, wfFile f) :
    (entriesBytes files off).length = 80 * files.length := by
  induction files generalizing off with
  | nil => rfl
  | cons f fs ih =>
    have hf := hw f (List.mem_cons_self f fs)
    have htail : ∀ g ∈ fs, wfFile g :=
      fun g hg => hw g (List.mem_cons_of_mem f hg)
    show (entryBytes f off ++
        entriesBytes fs (off + f.contents.length)).length =
      80 * (fs.length + 1)
    rw [List.length_append, entryBytes_length f off hf.1,
      ih (off + f.contents.length) htail]
    omega

theorem dataBytes_length (files : List UFile) :
    (dataBytes files).length = sizesSum files := by
  induction files with
  | nil => rfl
  | cons f fs ih => simp [dataBytes, sizesSum, List.map_cons, ih]

theorem readBytes_skip (a b : List Nat) (off len : Nat)
    (h : a.length ≤ off) :
    readBytes (a ++ b) off len = readBytes b (off - a.length) len := by
  unfold readBytes
  rw [List.drop_append_eq_append_drop, List.drop_eq_nil_of_le h,
    List.nil_append]

theorem readBytes_pre (a b : List Nat) (off len : Nat)
    (h : off + len ≤ a.length) :
    readBytes (a ++ b) off len = readBytes a off len := by
  unfold readBytes
  rw [List.drop_append_eq_append_drop,
    List.take_append_of_le_length (by rw [List.length_drop]; omega)]

theorem readBytes_sub (l : List Nat) (a m b n : Nat) (h : b + n ≤ m) :
    readBytes (readBytes l a m) b n = readBytes l (a + b) n := by
  unfold readBytes
  rw [List.drop_take, List.drop_drop, List.take_take]
  rw [Nat.min_eq_left (by omega)]

theorem cstr_append_zero (xs ys : List Nat) (h : ∀ b ∈ xs, b ≠ 0) :
    cstr (xs ++ 0 :: ys) = xs := by
  induction xs with
  | nil => simp [cstr]
  | cons x xs ih =>
    have hx : x ≠ 0 := h x (by simp)
    simp only [List.cons_append, cstr, if_neg hx, List.append_eq]
    rw [ih (fun b hb => h b (by simp [hb]))]

theorem find?_range_first (p : Nat → Bool) (i : Nat) (hpi : p i = true)
    (hprev : ∀ k, k < i → p k = false) :
    ∀ N, i < N → (List.range N).find? p = some i := by
  intro N
  induction N with
  | zero => omega
  | succ N ih =>
    intro hi
    rw [List.range_succ, List.find?_append]
    rcases Nat.lt_or_ge i N with h | h
    · rw [ih h]
      rfl
    · have hiN : N = i := by omega
      have hnone : (List.range N).find? p = none := by
        rw [List.find?_eq_none]
        intro x hx
        rw [List.mem_range] at hx
        simp [hprev x (by omega)]
      rw [hnone, hiN]
      simp [hpi]

end UniOS

namespace UniOS

theorem readBytes_all (l : List Nat) (n : Nat) (h : l.length = n) :
    readBytes l 0 n = l := by
  unfold readBytes
  rw [List.drop_zero, ← h, List.take_length]

theorem readBytes_exact (l rest : List Nat) (n : Nat) (h : l.length = n) :
    readBytes (l ++ rest) 0 n = l := by
  rw [readBytes_pre l rest 0 n (by omega), readBytes_all l n h]

theorem sizesSum_take_le (files : List UFile) (j : Nat) :
    sizesSum (files.take j) ≤ sizesSum files := by
  conv_rhs => rw [← List.take_append_drop j files]
  unfold sizesSum
  rw [List.map_append, List.sum_append]
  omega

theorem contents_le_sizesSum (files : List UFile) (j : Nat)
    (hj : j < files.length) :
    (files.get ⟨j, hj⟩).contents.length ≤ sizesSum files := by
  apply List.single_le_sum (fun y _ => Nat.zero_le y)
  exact List.mem_map_of_mem (fun f => f.contents.length) (files.get_mem j hj)

/-- The padded 64-byte name field. -/
theorem padded_name_length (f : UFile) (h : f.name.length ≤ 63) :
    (f.name ++ List.replicate (64 - f.name.length) 0).length = 64 := by
  simp
  omega

theorem entryBytes_read_name (f : UFile) (off : Nat) (h : f.name.length ≤ 63) :
    readBytes (entryBytes f off) 0 64 =
      f.name ++ List.replicate (64 - f.name.length) 0 := by
  unfold entryBytes
  rw [List.append_assoc]
  exact readBytes_exact _ _ 64 (padded_name_length f h)

theorem entryBytes_read_off (f : UFile) (off : Nat) (h : f.name.length ≤ 63) :
    readBytes (entryBytes f off) 64 8 = le64 off := by
  have hlen := padded_name_length f h
  unfold entryBytes
  rw [List.append_assoc]
  rw [readBytes_skip _ _ 64 8 (le_of_eq hlen), hlen, Nat.sub_self]
  exact readBytes_exact _ _ 8 (le64_length off)

theorem entryBytes_read_size (f : UFile) (off : Nat) (h : f.name.length ≤ 63) :
    readBytes (entryBytes f off) 72 8 = le64 f.contents.length := by
  have hlen := padded_name_length f h
  unfold entryBytes
  rw [List.append_assoc]
  rw [readBytes_skip _ _ 72 8 (by rw [hlen]; omega), hlen]
  rw [show (72 : Nat) - 64 = 8 from rfl]
  rw [readBytes_skip _ _ 8 8 (le_of_eq (le64_length off)), le64_length,
    Nat.sub_self]
  exact readBytes_all _ 8 (le64_length _)

theorem entriesBytes_slice (files : List UFile) (off j : Nat)
    (hw : ∀ f ∈ files, wfFile f) (hj : j < files.length) :
    readBytes (entriesBytes files off) (80 * j) 80 =
      entryBytes (files.get ⟨j, hj⟩) (off + sizesSum (files.take j)) := by
  induction files generalizing off j with
  | nil => exact absurd hj (by simp)
  | cons f fs ih =>
    have hf := hw f (List.mem_cons_self f fs)
    have htail : ∀ g ∈ fs, wfFile g :=
      fun g hg => hw g (List.mem_cons_of_mem f hg)
    cases j with
    | zero =>
      show readBytes (entryBytes f off ++
          entriesBytes fs (off + f.contents.length)) 0 80 = _
      rw [readBytes_exact _ _ 80 (entryBytes_length f off hf.1)]
      simp [sizesSum]
    | succ j =>
      have hj2 : j < fs.length := by
        simpa using hj
      show readBytes (entryBytes f off ++
          entriesBytes fs (off + f.contents.length)) (80 * (j + 1)) 80 = _
      rw [readBytes_skip _ _ _ _
        (by rw [entryBytes_length f off hf.1]; omega)]
      rw [entryBytes_length f off hf.1,
        show 80 * (j + 1) - 80 = 80 * j from by omega]
      rw [ih (off + f.contents.length) j htail hj2]
      have hoff : off + f.contents.length + sizesSum (fs.take j) =
          off + sizesSum ((f :: fs).take (j + 1)) := by
        simp [sizesSum]
        omega
      rw [hoff]
      rfl

theorem dataBytes_read (files : List UFile) (j : Nat)
    (hj : j < files.length) :
    readBytes (dataBytes files) (sizesSum (files.take j))
        ((files.get ⟨j, hj⟩).contents.length) =
      (files.get ⟨j, hj⟩).contents := by
  induction files generalizing j with
  | nil => exact absurd hj (by simp)
  | cons f fs ih =>
    cases j with
    | zero =>
      show readBytes (f.contents ++ dataBytes fs) (sizesSum []) _ = _
      rw [show sizesSum [] = 0 from rfl]
      exact readBytes_exact _ _ _ rfl
    | succ j =>
      have hj2 : j < fs.length := by
        simpa using hj
      show readBytes (f.contents ++ dataBytes fs)
          (sizesSum (f :: fs.take j)) _ = _
      have hsum : sizesSum (f :: fs.take j) =
          f.contents.length + sizesSum (fs.take j) := by
        simp [sizesSum]
      rw [hsum, readBytes_skip _ _ _ _ (by omega),
        show f.contents.length + sizesSum (fs.take j) - f.contents.length =
          sizesSum (fs.take j) from by omega]
      exact ih j hj2

end UniOS

namespace UniOS

theorem build_length (files : List UFile) (hw : ∀ f ∈ files, wfFile f) :
    (build files).length = 16 + 80 * files.length + sizesSum files := by
  unfold build
  simp only [List.length_append, entriesBytes_length _ _ hw, dataBytes_length,
    le64_length, show UNIFS_MAGIC.length = 8 from rfl]
  omega

theorem build_mounted (files : List UFile) :
    unifs_mounted (build files) = true := by
  unfold unifs_mounted build readBytes
  rw [List.drop_zero, List.take_append_of_le_length (by decide)]
  decide

theorem build_count (files : List UFile) (hN : files.length < U64) :
    file_count (build files) = files.length := by
  unfold file_count readU64 build
  rw [readBytes_skip UNIFS_MAGIC _ 8 8 (by decide)]
  rw [show (8 : Nat) - UNIFS_MAGIC.length = 0 from rfl]
  rw [readBytes_exact (le64 files.length) _ 8 (le64_length _)]
  exact decode_le64 _ hN

theorem build_read_entry (files : List UFile) (j k n : Nat)
    (hw : ∀ f ∈ files, wfFile f) (hj : j < files.length) (hkn : k + n ≤ 80) :
    readBytes (build files) (16 + 80 * j + k) n =
      readBytes (entryBytes (files.get ⟨j, hj⟩) (data_off files j)) k n := by
  unfold build
  rw [readBytes_skip UNIFS_MAGIC _ _ n
    (by rw [show UNIFS_MAGIC.length = 8 from rfl]; omega)]
  rw [show UNIFS_MAGIC.length = 8 from rfl,
    show 16 + 80 * j + k - 8 = 8 + (80 * j + k) from by omega]
  rw [readBytes_skip (le64 files.length) _ _ n (by rw [le64_length]; omega)]
  rw [le64_length, show 8 + (80 * j + k) - 8 = 80 * j + k from by omega]
  rw [readBytes_pre _ _ _ n (by rw [entriesBytes_length _ _ hw]; omega)]
  rw [← readBytes_sub _ (80 * j) 80 k n hkn]
  rw [entriesBytes_slice files _ j hw hj]
  rfl

theorem build_entry_name (files : List UFile) (j : Nat)
    (hw : ∀ f ∈ files, wfFile f) (hj : j < files.length) :
    entry_name (build files) j = (files.get ⟨j, hj⟩).name := by
  have hf := hw _ (files.get_mem j hj)
  have h63 : (files.get ⟨j, hj⟩).name.length ≤ 63 := hf.1
  unfold entry_name
  rw [show 16 + 80 * j = 16 + 80 * j + 0 from by omega]
  rw [build_read_entry files j 0 64 hw hj (by omega)]
  rw [entryBytes_read_name _ _ h63]
  have hrep : List.replicate (64 - (files.get ⟨j, hj⟩).name.length) (0 : Nat) =
      0 :: List.replicate (63 - (files.get ⟨j, hj⟩).name.length) (0 : Nat) := by
    rw [show 64 - (files.get ⟨j, hj⟩).name.length =
      (63 - (files.get ⟨j, hj⟩).name.length) + 1 from by omega]
    rw [List.replicate_succ]
  rw [hrep]
  exact cstr_append_zero _ _ hf.2

theorem build_entry_offset (files : List UFile) (j : Nat)
    (hw : ∀ f ∈ files, wfFile f) (hj : j < files.length)
    (hu : data_off files j < U64) :
    entry_offset (build files) j = data_off files j := by
  have hf := hw _ (files.get_mem j hj)
  unfold entry_offset readU64
  rw [build_read_entry files j 64 8 hw hj (by omega)]
  rw [entryBytes_read_off _ _ hf.1]
  exact decode_le64 _ hu

theorem build_entry_size (files : List UFile) (j : Nat)
    (hw : ∀ f ∈ files, wfFile f) (hj : j < files.length)
    (hs : (files.get ⟨j, hj⟩).contents.length < U64) :
    entry_size (build files) j = (files.get ⟨j, hj⟩).contents.length := by
  have hf := hw _ (files.get_mem j hj)
  unfold entry_size readU64
  rw [build_read_entry files j 72 8 hw hj (by omega)]
  rw [entryBytes_read_size _ _ hf.1]
  exact decode_le64 _ hs

theorem build_data (files : List UFile) (j : Nat)
    (hw : ∀ f ∈ files, wfFile f) (hj : j < files.length) :
    readBytes (build files) (data_off files j)
        ((files.get ⟨j, hj⟩).contents.length) =
      (files.get ⟨j, hj⟩).contents := by
  unfold build data_off
  rw [readBytes_skip UNIFS_MAGIC _ _ _
    (by rw [show UNIFS_MAGIC.length = 8 from rfl]; omega)]
  rw [show UNIFS_MAGIC.length = 8 from rfl,
    show 16 + 80 * files.length + sizesSum (files.take j) - 8 =
      8 + (80 * files.length + sizesSum (files.take j)) from by omega]
  rw [readBytes_skip (le64 files.length) _ _ _ (by rw [le64_length]; omega)]
  rw [le64_length,
    show 8 + (80 * files.length + sizesSum (files.take j)) - 8 =
      80 * files.length + sizesSum (files.take j) from by omega]
  rw [readBytes_skip (entriesBytes files _) _ _ _
    (by rw [entriesBytes_length _ _ hw]; omega)]
  rw [entriesBytes_length _ _ hw,
    show 80 * files.length + sizesSum (files.take j) - 80 * files.length =
      sizesSum (files.take j) from by omega]
  exact dataBytes_read files j hj

theorem build_find_entry (files : List UFile) (i : Nat)
    (hw : ∀ f ∈ files, wfFile f)
    (hnd : (files.map (fun f => f.name)).Nodup)
    (hi : i < files.length) (hN : files.length < U64) :
    find_entry (build files) ((files.get ⟨i, hi⟩).name) = some i := by
  have hgm : ∀ (k : Nat) (hk : k < files.length),
      (files.map (fun f => f.name)).get ⟨k, by simpa using hk⟩ =
        (files.get ⟨k, hk⟩).name := by
    intro k hk
    simp
  unfold find_entry
  rw [build_mounted files, if_pos rfl, build_count files hN]
  apply find?_range_first _ i _ _ files.length hi
  · simp [build_entry_name files i hw hi]
  · intro k hk
    have hki : k < files.length := by omega
    simp only [build_entry_name files k hw hki, decide_eq_false_iff_not]
    intro heq
    have hget : (files.map (fun f => f.name)).get ⟨k, by simpa using hki⟩ =
        (files.map (fun f => f.name)).get ⟨i, by simpa using hi⟩ := by
      rw [hgm k hki, hgm i hi]
      exact heq
    have := (hnd.get_inj_iff).mp hget
    have hk_eq : k = i := by
      simpa using congrArg Fin.val this
    omega

/-- C6: round trip.  For well-formed input files (names of at most 63
NUL-free bytes, pairwise distinct) whose built image fits in u64 offsets,
opening any input name on the mounted image yields exactly that file's size
and content bytes. -/
theorem C6_round_trip (files : List UFile) (i : Nat) (hi : i < files.length)
    (hw : ∀ f ∈ files, wfFile f)
    (hnd : (files.map (fun f => f.name)).Nodup)
    (hbound : (build files).length < U64) :
    unifs_open (build files) ((files.get ⟨i, hi⟩).name) =
      some ((files.get ⟨i, hi⟩).contents.length,
        (files.get ⟨i, hi⟩).contents) := by
  have hblen := build_length files hw
  have hN : files.length < U64 := by omega
  have htake := sizesSum_take_le files i
  have hu : data_off files i < U64 := by
    unfold data_off
    omega
  have hsz : (files.get ⟨i, hi⟩).contents.length < U64 := by
    have := contents_le_sizesSum files i hi
    omega
  unfold unifs_open
  rw [build_find_entry files i hw hnd hi hN]
  dsimp only
  rw [build_entry_size files i hw hi hsz, build_entry_offset files i hw hi hu]
  rw [build_data files i hw hi]

/-- The two files of scenario S3. -/
def C6_files : List UFile :=
  [⟨[82, 69, 65, 68, 77, 69], [104, 101, 108, 108, 111, 10]⟩,
    ⟨[112, 114, 111, 103, 46, 101, 108, 102],
      [127, 69, 76, 70, 0, 0, 0, 0, 1, 2, 3, 4, 5, 6, 7, 8]⟩]

set_option maxRecDepth 10000 in
/-- Witness for C6 on the S3 files: opening "README" returns size 6 and the
bytes of "hello\n". -/
theorem C6_witness :
    (0 : Nat) < C6_files.length ∧ (∀ f ∈ C6_files, wfFile f) ∧
      (C6_files.map (fun f => f.name)).Nodup ∧
      (build C6_files).length < U64 ∧
      unifs_open (build C6_files) [82, 69, 65, 68, 77, 69] =
        some (6, [104, 101, 108, 108, 111, 10]) := by
  refine ⟨by decide, by decide, by decide, by decide, ?_⟩
  exact C6_round_trip C6_files 0 (by decide) (by decide) (by decide) (by decide)

end UniOS

/-! ## ACPI S5 discovery and poweroff (src/kernel/acpi.cpp)

The DSDT is a byte list; `data.getD i 0` is the byte at offset i.  The SDT
header is the standard 36-byte ACPI header (acpi.h is not among the sources;
the parser starts scanning at `sizeof(AcpiSdtHeader)` = 36 and reads the
32-bit length field at offset 4).  SLP_TYP values live in u16 statics, so
stores reduce mod 2^16. -/

namespace UniOS

/-- The 32-bit `length` field of an SDT header. -/
def sdt_length (data : List Nat) : Nat := decode_le (readBytes data 4 4)

/-- `sdt_checksum_valid`: the first `length` bytes sum to 0 mod 256. -/
def sdt_checksum_valid (data : List Nat) : Bool :=
  (data.take (sdt_length data)).sum % 256 = 0

/-- The AML prefix-skipping loop after "_S5_": advance past 0x08 / 0x12
bytes.  `fuel` only bounds the recursion; every call below passes
`fuel = length`, which exceeds the loop's at most `length - j` steps, so the
guard `j < length` is what actually stops the walk, as in the source. -/
def skip_prefix_ops (data : List Nat) (length : Nat) : Nat → Nat → Nat
  | 0, j => j
  | fuel + 1, j =>
    if j < length ∧ (data.getD j 0 = 0x08 ∨ data.getD j 0 = 0x12) then
      skip_prefix_ops data length fuel (j + 1)
    else j

/-- The value parse once a PackageOp byte was consumed: skip the package
length encoding and the element count, then read SLP_TYPa and SLP_TYPb. -/
def s5_parse_at (data : List Nat) (length typa typb j0 : Nat) : Nat × Nat :=
  let j1 :=
    if data.getD j0 0 &&& 0xC0 = 0 then j0 + 1
    else if data.getD j0 0 &&& 0xC0 = 0x40 then j0 + 2
    else if data.getD j0 0 &&& 0xC0 = 0x80 then j0 + 3
    else j0 + 4
  let j2 := j1 + 1
  let p1 :=
    if data.getD j2 0 = 0x0A then
      (data.getD (j2 + 1) 0 <<< 10 % U16, j2 + 2)
    else if data.getD j2 0 = 0x0B then
      ((data.getD (j2 + 1) 0 ||| data.getD (j2 + 2) 0 <<< 8) <<< 10 % U16,
        j2 + 3)
    else if data.getD j2 0 < 64 then
      (data.getD j2 0 <<< 10 % U16, j2 + 1)
    else (typa, j2)
  let typa1 := p1.1
  let j3 := p1.2
  let typb1 :=
    if j3 < length then
      if data.getD j3 0 = 0x0A then data.getD (j3 + 1) 0 <<< 10 % U16
      else if data.getD j3 0 < 64 then data.getD j3 0 <<< 10 % U16
      else typb
    else typb
  (typa1, typb1)

/-- The scan for a PackageOp byte after "_S5_"; `fuel = length` at every
call bounds the at most `length - 2 - j` iterations. -/
def s5_scan (data : List Nat) (length typa typb : Nat) :
    Nat → Nat → Option (Nat × Nat)
  | 0, _ => none
  | fuel + 1, j =>
    if j < length - 2 then
      if data.getD j 0 = 0x12 then
        some (s5_parse_at data length typa typb (j + 1))
      else s5_scan data length typa typb fuel (j + 1)
    else none

/-- The outer "_S5_" search from offset 36 (the header size); `fuel = length`
bounds the at most `length - 4 - i` iterations. -/
def find_s5_loop (data : List Nat) (length typa typb : Nat) :
    Nat → Nat → Option (Nat × Nat)
  | 0, _ => none
  | fuel + 1, i =>
    if i < length - 4 then
      if data.getD i 0 = 0x5F ∧ data.getD (i + 1) 0 = 0x53 ∧
          data.getD (i + 2) 0 = 0x35 ∧ data.getD (i + 3) 0 = 0x5F then
        match s5_scan data length typa typb length
            (skip_prefix_ops data length length (i + 4)) with
        | some r => some r
        | none => find_s5_loop data length typa typb fuel (i + 1)
      else find_s5_loop data length typa typb fuel (i + 1)
    else none

/-- `find_s5_in_dsdt`: (return value, slp_typa, slp_typb), given the statics'
values before the call.  On checksum failure the statics are untouched; when
no package parses, both default to 5 << 10. -/
def find_s5_in_dsdt (data : List Nat) (typa typb : Nat) : Bool × Nat × Nat :=
  if sdt_checksum_valid data = false then (false, typa, typb)
  else
    match find_s5_loop data (sdt_length data) typa typb
        (sdt_length data) 36 with
    | some r => (true, r.1, r.2)
    | none => (true, 5 <<< 10, 5 <<< 10)

/-- The ACPI statics captured at init. -/
structure AcpiState where
  acpi_available : Bool
  pm1a_cnt : Nat
  pm1b_cnt : Nat
  slp_typa : Nat
  slp_typb : Nat
  smi_cmd_port : Nat
  acpi_enable_val : Nat

/-- The common fallback SLP_TYP values tried after the parsed one. -/
def common_slp_types : List Nat := [5 <<< 10, 7 <<< 10, 0 <<< 10, 6 <<< 10]

/-- `acpi_poweroff` as its ordered sequence of port writes
(port, value, 16-bit?).  `sci_en` is bit 0 of the initial `inw(pm1a_cnt)`;
when it is clear and an SMI port is configured, an 8-bit enable write
precedes everything (the SCI_EN polling loop only reads). -/
def acpi_poweroff_writes (st : AcpiState) (sci_en : Bool) :
    List (Nat × Nat × Bool) :=
  if ¬ st.acpi_available ∨ st.pm1a_cnt = 0 then [(0x604, 0x2000, true)]
  else
    (if ¬ sci_en ∧ st.smi_cmd_port ≠ 0 ∧ st.acpi_enable_val ≠ 0 then
        [(st.smi_cmd_port, st.acpi_enable_val, false)]
      else []) ++
    (if st.slp_typa ≠ 0 then
        [(st.pm1a_cnt, (st.slp_typa ||| 0x2000) % U16, true)]
      else []) ++
    (common_slp_types.map (fun t =>
      (st.pm1a_cnt, (t ||| 0x2000) % U16, true) ::
        (if st.pm1b_cnt ≠ 0 then [(st.pm1b_cnt, (t ||| 0x2000) % U16, true)]
          else []))).flatten ++
    [(0x604, 0x2000, true), (0xB004, 0x2000, true)]

/-- The first value written to the PM1a control port. -/
def first_pm1a_write (st : AcpiState) (sci_en : Bool) : Option Nat :=
  (((acpi_poweroff_writes st sci_en).filter
      (fun w => w.1 = st.pm1a_cnt)).head?).map (fun w => w.2.1)

/-- The scenario S5 DSDT: a 36-byte header (signature "DSDT", length 45,
revision 1, checksum 45 making the sum 0 mod 256) followed by the body
bytes '_' 'S' '5' '_' 0x12 0x0A 0x05 0x0A 0x05. -/
def C7_dsdt : List Nat :=
  [68, 83, 68, 84, 45, 0, 0, 0, 1, 45] ++ List.replicate 26 0 ++
    [95, 83, 53, 95, 0x12, 0x0A, 5, 0x0A, 5]

end UniOS

namespace UniOS

/-- C7 counterexample: on the S5 scenario DSDT the statics do become
5 << 10 (via the fallback: the prefix-skipping loop consumes the PackageOp
byte, so the package parse finds no further 0x12 and the default applies),
and poweroff's first 16-bit write to PM1a_CNT is
(5 << 10) | (1 << 13) = 0x3400 — not 0x2005 as the claim asserts. -/
theorem C7_counterexample :
    find_s5_in_dsdt C7_dsdt 0 0 = (true, 5 <<< 10, 5 <<< 10) ∧
      first_pm1a_write ⟨true, 1000, 0, 5 <<< 10, 5 <<< 10, 0xB2, 0xA0⟩ true =
        some 0x3400 ∧
      first_pm1a_write ⟨true, 1000, 0, 5 <<< 10, 5 <<< 10, 0xB2, 0xA0⟩ true ≠
        some 0x2005 := by
  refine ⟨by decide, by decide, by decide⟩

/-- C7 amended: ACPI init on the S5 scenario DSDT sets
slp_typa = slp_typb = 5 << 10, and for any available state with that parsed
value (PM1a port nonzero, SMI port distinct from it), poweroff's first write
to the PM1a_CNT port is the 16-bit value (5 << 10) | (1 << 13), which equals
0x3400, not 0x2005. -/
theorem C7_acpi_s5_amended (pm1a pm1b smi enable : Nat) (sci : Bool)
    (hpm : pm1a ≠ 0) (hsmi : smi ≠ pm1a) :
    find_s5_in_dsdt C7_dsdt 0 0 = (true, 5 <<< 10, 5 <<< 10) ∧
      first_pm1a_write ⟨true, pm1a, pm1b, 5 <<< 10, 5 <<< 10, smi, enable⟩
          sci = some ((5 <<< 10) ||| (1 <<< 13)) ∧
      ((5 <<< 10) ||| (1 <<< 13) : Nat) = 0x3400 := by
  refine ⟨by decide, ?_, by decide⟩
  unfold first_pm1a_write acpi_poweroff_writes
  rw [if_neg (by simp [hpm])]
  rw [if_pos (show (5 <<< 10 : Nat) ≠ 0 from by decide)]
  by_cases h2 : ¬sci = true ∧ smi ≠ 0 ∧ enable ≠ 0
  · rw [if_pos h2]
    simp only [List.filter_append, List.filter_cons, List.filter_nil]
    rw [show (decide (smi = pm1a)) = false from by simp [hsmi]]
    simp [U16]
  · rw [if_neg h2]
    simp only [List.filter_append, List.filter_cons, List.filter_nil]
    simp [U16]

/-- Witness for C7 at PM1a = 1000, SMI port 0xB2. -/
theorem C7_witness :
    (1000 : Nat) ≠ 0 ∧ (0xB2 : Nat) ≠ 1000 ∧
      (find_s5_in_dsdt C7_dsdt 0 0 = (true, 5 <<< 10, 5 <<< 10) ∧
        first_pm1a_write ⟨true, 1000, 0, 5 <<< 10, 5 <<< 10, 0xB2, 0xA0⟩
            false = some ((5 <<< 10) ||| (1 <<< 13)) ∧
        ((5 <<< 10) ||| (1 <<< 13) : Nat) = 0x3400) := by
  refine ⟨by decide, by decide, ?_⟩
  exact C7_acpi_s5_amended 1000 0 0xB2 0xA0 false (by decide) (by decide)

end UniOS

/-! ## USB HID keyboard input (src/kernel/drivers/usb/usb_hid.cpp)

Characters are byte values; the keyboard ring (capacity 256, holding at most
255 entries) is embedded as the list of queued characters with push dropping
on full.  Timer ticks are monotone, so the u64 subtractions `now - tick`
never wrap and are Nat subtraction here. -/

namespace UniOS

/-- Shift mask 0x22 and Ctrl mask 0x11 (left | right). -/
def HID_MOD_SHIFT_MASK : Nat := 0x22
def HID_MOD_CTRL_MASK : Nat := 0x11

/-- `REPEAT_DELAY_TICKS`: 500 ms initial delay at the 1000 Hz timer. -/
def REPEAT_DELAY_TICKS : Nat := 500

/-- `REPEAT_RATE_TICKS`: 33 ms between repeats. -/
def REPEAT_RATE_TICKS : Nat := 33

/-- `hid_to_ascii`: the 128-entry US-layout table, entry = byte value. -/
def hid_to_ascii : List Nat :=
  [0, 0, 0, 0, 97, 98, 99, 100,
   101, 102, 103, 104, 105, 106, 107, 108,
   109, 110, 111, 112, 113, 114, 115, 116,
   117, 118, 119, 120, 121, 122, 49, 50,
   51, 52, 53, 54, 55, 56, 57, 48,
   10, 27, 8, 9, 32, 45, 61, 91,
   93, 92, 35, 59, 39, 96, 44, 46,
   47, 0, 0, 0, 0, 0, 0, 0,
   0, 0, 0, 0, 0, 0, 0, 0,
   0, 0, 0x84, 0, 0x86, 0x85, 0, 0x83,
   0x82, 0x81, 0x80, 0, 47, 42, 45, 43,
   10, 49, 50, 51, 52, 53, 54, 55,
   56, 57, 48, 46, 0, 0, 0, 61,
   0, 0, 0, 0, 0, 0, 0, 0,
   0, 0, 0, 0, 0, 0, 0, 0,
   0, 0, 0, 0, 0, 0, 0, 0]

/-- `hid_to_ascii_shift`: the shifted variants. -/
def hid_to_ascii_shift : List Nat :=
  [0, 0, 0, 0, 65, 66, 67, 68,
   69, 70, 71, 72, 73, 74, 75, 76,
   77, 78, 79, 80, 81, 82, 83, 84,
   85, 86, 87, 88, 89, 90, 33, 64,
   35, 36, 37, 94, 38, 42, 40, 41,
   10, 27, 8, 9, 32, 95, 43, 123,
   125, 124, 126, 58, 34, 126, 60, 62,
   63, 0, 0, 0, 0, 0, 0, 0,
   0, 0, 0, 0, 0, 0, 0, 0,
   0, 0, 0, 0, 0, 0, 0, 0,
   0, 0, 0, 0, 47, 42, 45, 43,
   10, 49, 50, 51, 52, 53, 54, 55,
   56, 57, 48, 46, 0, 0, 0, 61,
   0, 0, 0, 0, 0, 0, 0, 0,
   0, 0, 0, 0, 0, 0, 0, 0,
   0, 0, 0, 0, 0, 0, 0, 0]

/-- A Boot-Protocol keyboard report: modifier byte and the 6 scan codes. -/
structure HidKeyboardReport where
  modifiers : Nat
  keys : List Nat
deriving DecidableEq

/-- The driver state the claims touch: the saved previous report, the
character ring, and the repeat timer. -/
structure HidState where
  last_report : HidKeyboardReport
  kb : List Nat
  repeat_keycode : Nat
  repeat_start_tick : Nat
  repeat_last_tick : Nat
  rshift : Bool
deriving DecidableEq

/-- `kb_buffer_push`: append, dropping when the ring is full. -/
def kb_buffer_push (kb : List Nat) (c : Nat) : List Nat :=
  if kb.length < 255 then kb ++ [c] else kb

/-- `key_was_pressed`: the code appears in the previous report. -/
def key_was_pressed (last : HidKeyboardReport) (kc : Nat) : Bool :=
  last.keys.contains kc

/-- `handle_key_repeat` at tick `now`. -/
def handle_key_repeat (now : Nat) (st : HidState) : HidState :=
  if st.repeat_keycode = 0 then st
  else if now - st.repeat_start_tick ≥ REPEAT_DELAY_TICKS then
    if now - st.repeat_last_tick ≥ REPEAT_RATE_TICKS then
      let c := if st.rshift then hid_to_ascii_shift.getD st.repeat_keycode 0
        else hid_to_ascii.getD st.repeat_keycode 0
      let st1 := if c ≠ 0 then { st with kb := kb_buffer_push st.kb c }
        else st
      { st1 with repeat_last_tick := now }
    else st
  else st

/-- The per-scan-code body of the report loop.  `last` is the previous
report saved in the global (unchanged during the loop). -/
def process_one_key (last : HidKeyboardReport) (shift ctrl : Bool)
    (now : Nat) (st : HidState) (kc : Nat) : HidState :=
  if kc = 0 then st
  else if 128 ≤ kc then st
  else if key_was_pressed last kc then st
  else if shift ∧ kc = 0x50 then { st with kb := kb_buffer_push st.kb 0x90 }
  else if shift ∧ kc = 0x4F then { st with kb := kb_buffer_push st.kb 0x91 }
  else
    let c := if shift then hid_to_ascii_shift.getD kc 0
      else hid_to_ascii.getD kc 0
    if ctrl ∧ c ≠ 0 ∧ 97 ≤ c ∧ c ≤ 122 then
      { st with kb := kb_buffer_push st.kb (c - 97 + 1)
                repeat_keycode := kc, rshift := shift
                repeat_start_tick := now, repeat_last_tick := now }
    else if ctrl ∧ c ≠ 0 ∧ 65 ≤ c ∧ c ≤ 90 then
      { st with kb := kb_buffer_push st.kb (c - 65 + 1)
                repeat_keycode := kc, rshift := shift
                repeat_start_tick := now, repeat_last_tick := now }
    else if ctrl ∧ c ≠ 0 ∧ (c = 91 ∨ c = 123) then
      { st with kb := kb_buffer_push st.kb 27 }
    else if ctrl ∧ c ≠ 0 ∧ (c = 92 ∨ c = 124) then
      { st with kb := kb_buffer_push st.kb 28 }
    else if ctrl ∧ c ≠ 0 ∧ (c = 93 ∨ c = 125) then
      { st with kb := kb_buffer_push st.kb 29 }
    else
      let st1 := if c ≠ 0 then { st with kb := kb_buffer_push st.kb c }
        else st
      { st1 with repeat_keycode := kc, rshift := shift
                 repeat_start_tick := now, repeat_last_tick := now }

/-- `process_keyboard_report` at tick `now`. -/
def process_keyboard_report (now : Nat) (st : HidState)
    (r : HidKeyboardReport) : HidState :=
  let shift := r.modifiers &&& HID_MOD_SHIFT_MASK ≠ 0
  let ctrl := r.modifiers &&& HID_MOD_CTRL_MASK ≠ 0
  let current_key := (r.keys.find? (fun k => k ≠ 0 ∧ k < 128)).getD 0
  let st1 := r.keys.foldl (process_one_key st.last_report shift ctrl now) st
  let st2 := if current_key = 0 then { st1 with repeat_keycode := 0 } else st1
  { st2 with last_report := r }

end UniOS

namespace UniOS

/-- The empty driver state. -/
def C8_s0 : HidState := ⟨⟨0, [0, 0, 0, 0, 0, 0]⟩, [], 0, 0, 0, false⟩

/-- Report with only 0x04 ('a') held. -/
def C8_rA : HidKeyboardReport := ⟨0, [4, 0, 0, 0, 0, 0]⟩

/-- Report with 0x04 and 0x05 held, no modifiers. -/
def C8_rAB : HidKeyboardReport := ⟨0, [4, 5, 0, 0, 0, 0]⟩

/-- State after 'a' is pressed at tick 0. -/
def C8_s1 : HidState := process_keyboard_report 0 C8_s0 C8_rA

/-- State after the {0x04, 0x05} report arrives at tick 10. -/
def C8_s2 : HidState := process_keyboard_report 10 C8_s1 C8_rAB

/-- State after the identical report is processed again at tick 20. -/
def C8_s3 : HidState := process_keyboard_report 20 C8_s2 C8_rAB

/-- State after the repeat handler fires at tick 510 (500 ms elapsed). -/
def C8_h1 : HidState := handle_key_repeat 510 C8_s3

/-- C8: processing {0x04, 0x05} after {0x04} enqueues exactly the one
character 'b' (98) and anchors the repeat timer on code 0x05 at tick 10;
processing the identical report again enqueues nothing; the repeat handler
does nothing at tick 509 (499 < 500 ms elapsed), emits a further 'b' at tick
510, nothing at tick 542 (32 < 33 ms since the last repeat), and the next
'b' at tick 543 — the 33 ms cadence. -/
theorem C8_keyboard_edge_trigger :
    C8_s2.kb = C8_s1.kb ++ [98] ∧
      C8_s2.repeat_keycode = 5 ∧
      C8_s2.repeat_start_tick = 10 ∧
      C8_s3.kb = C8_s2.kb ∧
      C8_s3.repeat_keycode = 5 ∧
      handle_key_repeat 509 C8_s3 = C8_s3 ∧
      C8_h1.kb = C8_s3.kb ++ [98] ∧
      C8_h1.repeat_last_tick = 510 ∧
      handle_key_repeat 542 C8_h1 = C8_h1 ∧
      (handle_key_repeat 543 C8_h1).kb = C8_h1.kb ++ [98] ∧
      (handle_key_repeat 543 C8_h1).repeat_last_tick = 543 := by
  decide

end UniOS
